import Mathlib

/-!
Shallow embedding of the CaféCraft order-to-inventory consumption engine
(`src/inventory/inventory_service.py` `POSService`, the SQLite schema in
`src/database/schema.py`, and the transactional semantics of
`src/database/db.py`).

Conventions of the embedding:
- SQLite tables are lists of row structures; `REAL` columns are `Rat`,
  `INTEGER` ids are `Nat`, nullable columns are `Option`.
- `CURRENT_TIMESTAMP` is modelled by a logical clock `Db.clock` (constant
  within one operation, as all writes of one operation share a transaction).
- `AUTOINCREMENT` ids are modelled by `Db.nextOrderId` / `Db.nextLotId`.
- Each `POSService` operation runs inside `get_db_connection`
  (`src/database/db.py`): `commit` happens once at the end of the `with`
  block and any exception path closes the connection without committing,
  which discards every buffered write.  An operation is therefore embedded
  as a function returning the result flag together with the new state,
  where every abort path returns the *original* state.
- Free-text columns (`audit_log.new_value`, `transactions.notes`) are kept
  as strings but the `%.2f` float formatting of the source is abstracted,
  since no claim inspects those strings.
-/

namespace CafeCraft

/-- Python `str.lower()` restricted to the character-wise lowering Lean
provides; done on the underlying character list so it computes by kernel
reduction. -/
def pyLower (s : String) : String := ⟨s.data.map Char.toLower⟩

/-- Python `str.strip()`: drop whitespace from both ends. -/
def pyStrip (s : String) : String :=
  ⟨((s.data.dropWhile Char.isWhitespace).reverse.dropWhile Char.isWhitespace).reverse⟩

/-- Embeds `POSService._normalize_payment_method`
(`src/inventory/inventory_service.py` lines 15-28).  `None` is modelled as
`none`; `(method or "")` maps it to the empty string. -/
def normalize_payment_method (method : Option String) : String :=
  let m := pyLower (pyStrip (method.getD ""))
  if m = "cash" then "cash"
  else if m = "gcash" then "gcash"
  else if m = "card" then "card"
  else if m = "bank transfer" ∨ m = "bank" ∨ m = "transfer" then "other"
  else if m = "other" then "other"
  else "other"

/-- Row of the `products` table (`src/database/schema.py`). -/
structure ProductRow where
  id : Nat
  price : Rat
  isActive : Bool
deriving DecidableEq

/-- Row of the `recipes` table: one recipe per product. -/
structure RecipeRow where
  id : Nat
  productId : Nat
deriving DecidableEq

/-- Row of the `recipe_items` table, with `qty`, `unit` and
`wastage_factor` as in the schema. -/
structure RecipeItemRow where
  recipeId : Nat
  ingredientId : Nat
  qty : Rat
  unit : String
  wastageFactor : Rat
deriving DecidableEq

/-- Row of the `inventory` table (an inventory lot). -/
structure LotRow where
  id : Nat
  ingredientId : Nat
  quantity : Rat
  lastRestocked : Option Nat
  expiryDate : Option Nat
  location : String
  supplier : String
deriving DecidableEq

/-- Row of the `inventory_movements` table. -/
structure MovementRow where
  ingredientId : Nat
  movementType : String
  qty : Rat
  unit : String
  refType : Option String
  refId : Option Nat
  performedBy : Option Nat
  reason : String
deriving DecidableEq

/-- Row of the `orders` table (claim-relevant columns). -/
structure OrderRow where
  id : Nat
  orderNumber : String
  userId : Nat
  totalAmount : Rat
  status : String
  paymentMethod : Option String
  completedAt : Option Nat
  voidReason : Option String
  voidedBy : Option Nat
  voidedAt : Option Nat
deriving DecidableEq

/-- Row of the `order_items` table. -/
structure OrderItemRow where
  orderId : Nat
  productId : Nat
  quantity : Nat
  unitPrice : Rat
  subtotal : Rat
deriving DecidableEq

/-- Row of the `payments` table. -/
structure PaymentRow where
  orderId : Nat
  method : String
  amount : Rat
  received : Rat
  change : Rat
  status : String
deriving DecidableEq

/-- Row of the `audit_log` table. -/
structure AuditRow where
  userId : Option Nat
  action : String
  tableName : String
  recordId : Nat
  newValue : String
deriving DecidableEq

/-- Row of the legacy `transactions` table. -/
structure TransactionRow where
  txType : String
  ingredientId : Option Nat
  productId : Option Nat
  quantity : Rat
  unitPrice : Rat
  totalAmount : Rat
  userId : Option Nat
  notes : String
deriving DecidableEq

/-- A cart line as passed by the POS UI: `{"id": ..., "quantity": ..., "price": ...}`. -/
structure CartItem where
  id : Nat
  quantity : Nat
  price : Rat
deriving DecidableEq

/-- A cart line for the deduction pipeline: `{"product_id": ..., "quantity": ...}`. -/
structure CartLine where
  productId : Nat
  quantity : Nat
deriving DecidableEq

/-- The SQLite database state. -/
structure Db where
  products : List ProductRow
  recipes : List RecipeRow
  recipeItems : List RecipeItemRow
  inventory : List LotRow
  movements : List MovementRow
  orders : List OrderRow
  orderItems : List OrderItemRow
  payments : List PaymentRow
  auditLog : List AuditRow
  transactions : List TransactionRow
  nextOrderId : Nat
  nextLotId : Nat
  clock : Nat
deriving DecidableEq

/-- The `SELECT ... FROM orders WHERE id = ?` + `fetchone` lookup. -/
def findOrder (db : Db) (orderId : Nat) : Option OrderRow :=
  db.orders.find? (fun o => o.id == orderId)

/-- The `SELECT ... FROM order_items WHERE order_id = ?` query. -/
def orderItemsOf (db : Db) (orderId : Nat) : List OrderItemRow :=
  db.orderItems.filter (fun it => it.orderId == orderId)

/-! ## The recipe resolution / validation / consumption pipeline

`POSService.create_order` and `POSService.finalize_draft_order` call
`InventoryService.deduct_ingredients_for_sale` from
`inventory/recipe_inventory.py`.  That module is not under `src/` (only its
callers are), so the pipeline below is modelled from the spec
(sections 4.1 Recipe Resolver, 4.2 Inventory Validator and
4.3 Consumption Engine). -/

/-- Error kinds of the pipeline, from the spec's error surface table (§4.5). -/
inductive DeductErr where
  | invalidProduct (productId : Nat)
  | missingRecipe (productId : Nat)
  | unitMismatch (ingredientId : Nat)
  | insufficientInventory (short : List (Nat × Rat × Rat))
  | inventoryRace (ingredientId : Nat)
deriving DecidableEq

/-- An accumulated ingredient requirement: ingredient id, running total
quantity, and the unit of the first contribution. -/
structure Requirement where
  ingredientId : Nat
  qty : Rat
  unit : String
deriving DecidableEq

/-- Modelled from the spec (§4.1): accumulate one contribution into the
requirement map; a contribution in a different unit from the existing
entry for the same ingredient is a `UnitMismatch` error. -/
def addReq : List Requirement → Nat → Rat → String → Except DeductErr (List Requirement)
  | [], iid, q, u => .ok [⟨iid, q, u⟩]
  | r :: rs, iid, q, u =>
    if r.ingredientId = iid then
      if r.unit = u then .ok ({ r with qty := r.qty + q } :: rs)
      else .error (.unitMismatch iid)
    else
      match addReq rs iid q u with
      | .error e => .error e
      | .ok rs' => .ok (r :: rs')

/-- Modelled from the spec (§4.1): resolve one cart line.  The product must
exist and be active (`InvalidProduct`); its recipe must exist since the
`src/` callers always pass `strict_recipes=True` (`MissingRecipe`); each
recipe item contributes `qty * line_quantity * (1 + wastage_factor)`. -/
def resolveLine (db : Db) (acc : List Requirement) (line : CartLine) :
    Except DeductErr (List Requirement) :=
  match db.products.find? (fun p => p.id == line.productId && p.isActive) with
  | none => .error (.invalidProduct line.productId)
  | some _ =>
    match db.recipes.find? (fun rc => rc.productId == line.productId) with
    | none => .error (.missingRecipe line.productId)
    | some rc =>
      (db.recipeItems.filter (fun ri => ri.recipeId == rc.id)).foldlM
        (fun a ri => addReq a ri.ingredientId
          (ri.qty * (line.quantity : Rat) * (1 + ri.wastageFactor)) ri.unit)
        acc

/-- Modelled from the spec (§4.1): expand the whole cart into the
requirement map. -/
def resolveRequirements (db : Db) (cart : List CartLine) :
    Except DeductErr (List Requirement) :=
  cart.foldlM (resolveLine db) []

/-- The epsilon tolerance of the spec (§4.2): `1e-9`. -/
def eps : Rat := 1 / 1000000000

/-- Total quantity currently on hand for an ingredient: the sum over all of
its inventory lots. -/
def availableQty (db : Db) (ingredientId : Nat) : Rat :=
  ((db.inventory.filter (fun l => l.ingredientId == ingredientId)).map
    (fun l => l.quantity)).sum

/-- Modelled from the spec (§4.2): the validator's shortage list, each entry
carrying `(ingredient, needed, available)`. -/
def shortageList (db : Db) (reqs : List Requirement) : List (Nat × Rat × Rat) :=
  (reqs.filter (fun r => availableQty db r.ingredientId + eps < r.qty)).map
    (fun r => (r.ingredientId, r.qty, availableQty db r.ingredientId))

/-- Modelled from the spec (§4.3): the deterministic lot ordering — lots
with a non-null expiry first, then ascending expiry, then ascending restock
timestamp, then ascending lot id. -/
def lotKey (l : LotRow) : Nat × Nat × Nat × Nat :=
  ((if l.expiryDate = none then 1 else 0), l.expiryDate.getD 0,
    l.lastRestocked.getD 0, l.id)

/-- Boolean comparison of lot ordering keys. -/
def lotLE (a b : LotRow) : Bool :=
  decide (lotKey a ≤ lotKey b)

/-- Modelled from the spec (§4.3): walk the ordered lots, reducing or
deleting each (a lot reaching zero is deleted) until the required quantity
is exhausted; returns the surviving lots and the still-unsatisfied
remainder. -/
def consumeWalk : List LotRow → Rat → List LotRow × Rat
  | [], rem => ([], rem)
  | l :: ls, rem =>
    if rem ≤ 0 then (l :: ls, rem)
    else
      let take := min rem l.quantity
      let q' := l.quantity - take
      let res := consumeWalk ls (rem - take)
      if q' ≤ 0 then res else ({ l with quantity := q' } :: res.1, res.2)

/-- Modelled from the spec (§4.3): consume one resolved requirement from
the ledger.  A remainder above epsilon after walking every lot is the fatal
`InventoryRace`; on success one `consume` movement records the total
quantity for the ingredient, tagged with the order reference. -/
def consumeIngredient (db : Db) (orderId userId : Nat) (r : Requirement) :
    Except DeductErr Db :=
  let lots := (db.inventory.filter (fun l => l.ingredientId == r.ingredientId)).mergeSort lotLE
  let res := consumeWalk lots r.qty
  if eps < res.2 then .error (.inventoryRace r.ingredientId)
  else .ok { db with
    inventory :=
      db.inventory.filter (fun l => !(l.ingredientId == r.ingredientId)) ++ res.1,
    movements := db.movements ++
      [⟨r.ingredientId, "consume", r.qty, r.unit, some "order", some orderId,
        some userId, "sale"⟩] }

/-- Modelled from the spec: `InventoryService.deduct_ingredients_for_sale`
(`inventory/recipe_inventory.py`, not under `src/`) — resolve, validate,
then consume, in one pass over the same state. -/
def deduct_ingredients_for_sale (db : Db) (cart : List CartLine)
    (orderId userId : Nat) : Except DeductErr Db :=
  match resolveRequirements db cart with
  | .error e => .error e
  | .ok reqs =>
    if shortageList db reqs ≠ [] then
      .error (.insufficientInventory (shortageList db reqs))
    else
      reqs.foldlM (fun d r => consumeIngredient d orderId userId r) db

/-! ## The POSService operations (`src/inventory/inventory_service.py`) -/

/-- The `isOrderConsume` predicate of the restock query: `ref_type='order'
AND ref_id=? AND movement_type='consume'`. -/
def isOrderConsume (orderId : Nat) (m : MovementRow) : Bool :=
  m.refType == some "order" && m.refId == some orderId && m.movementType == "consume"

/-- First-occurrence deduplication of `(ingredient_id, unit)` keys,
modelling the `GROUP BY ingredient_id, unit` of the restock query. -/
def dedupKeys (seen : List (Nat × String)) : List (Nat × String) → List (Nat × String)
  | [] => []
  | k :: ks =>
    if k ∈ seen then dedupKeys seen ks else k :: dedupKeys (k :: seen) ks

/-- The distinct `(ingredient_id, unit)` groups of an order's `consume`
movements. -/
def consumeKeys (db : Db) (orderId : Nat) : List (Nat × String) :=
  dedupKeys [] ((db.movements.filter (isOrderConsume orderId)).map
    (fun m => (m.ingredientId, m.unit)))

/-- The `SUM(qty)` of one `(ingredient_id, unit)` group of an order's
`consume` movements. -/
def consumedSum (db : Db) (orderId : Nat) (k : Nat × String) : Rat :=
  (((db.movements.filter (isOrderConsume orderId)).filter
      (fun m => m.ingredientId == k.1 && m.unit == k.2)).map (fun m => m.qty)).sum

/-- The result set of the restock query of
`POSService._restock_from_order_consumption`: one `((ingredient, unit), sum)`
row per group. -/
def consumeGroups (db : Db) (orderId : Nat) : List ((Nat × String) × Rat) :=
  (consumeKeys db orderId).map (fun k => (k, consumedSum db orderId k))

/-- The inventory lot inserted for one restock group. -/
def restockLot (lotId clock : Nat) (g : (Nat × String) × Rat) : LotRow :=
  ⟨lotId, g.1.1, g.2, some clock, none, "system", "void-restock"⟩

/-- The `refund` movement inserted for one restock group. -/
def refundMovement (orderId performedBy : Nat) (reason : String)
    (g : (Nat × String) × Rat) : MovementRow :=
  ⟨g.1.1, "refund", g.2, g.1.2, some "order", some orderId, some performedBy, reason⟩

/-- The legacy `transactions` adjustment row inserted for one restock group. -/
def restockTransaction (orderId performedBy : Nat) (g : (Nat × String) × Rat) :
    TransactionRow :=
  ⟨"adjustment", some g.1.1, none, g.2, 0, 0, some performedBy,
    "Restock from void (order_id=" ++ toString orderId ++ ")"⟩

/-- One iteration of the restock loop: groups whose summed quantity is not
positive are skipped (`if qty <= 0: continue`). -/
def restockOne (orderId performedBy : Nat) (reason : String) (db : Db)
    (g : (Nat × String) × Rat) : Db :=
  if 0 < g.2 then
    { db with
      inventory := db.inventory ++ [restockLot db.nextLotId db.clock g],
      nextLotId := db.nextLotId + 1,
      movements := db.movements ++ [refundMovement orderId performedBy reason g],
      transactions := db.transactions ++ [restockTransaction orderId performedBy g] }
  else db

/-- Embeds `POSService._restock_from_order_consumption`
(`src/inventory/inventory_service.py` lines 205-250): the group rows are
fetched once from the movements ledger, then each positive group inserts a
new lot, a `refund` movement and a legacy transaction row. -/
def restock_from_order_consumption (db : Db) (orderId performedBy : Nat)
    (reason : String) : Db :=
  (consumeGroups db orderId).foldl (restockOne orderId performedBy reason) db

/-- The order-row update performed by `void_order`. -/
def voidedOrder (o : OrderRow) (reason : String) (performedBy clock : Nat) : OrderRow :=
  { o with
    status := "voided"
    voidReason := some reason
    voidedBy := some performedBy
    voidedAt := some clock }

/-- Embeds `POSService.void_order` (`src/inventory/inventory_service.py`
lines 252-308).  Returns the Python `bool` together with the committed (or,
on an abort, unchanged) state. -/
def void_order (db : Db) (orderId performedBy : Nat) (reason : String)
    (restock_ingredients : Bool) : Bool × Db :=
  match findOrder db orderId with
  | none => (false, db)
  | some o =>
    if pyLower o.status = "voided" then (true, db)
    else
      let db1 : Db := if restock_ingredients then
          restock_from_order_consumption db orderId performedBy
            ("Void restock: " ++ reason)
        else db
      let db2 : Db := { db1 with
        orders := db1.orders.map (fun o2 =>
          if o2.id == orderId then voidedOrder o2 reason performedBy db1.clock else o2) }
      let db3 : Db := { db2 with
        auditLog := db2.auditLog ++
          [⟨some performedBy, "VOID_ORDER", "orders", orderId,
            "reason=" ++ reason ++ "; restock=" ++
              (if restock_ingredients then "1" else "0")⟩] }
      let db4 : Db := { db3 with
        payments := db3.payments ++ [⟨orderId, "other", 0, 0, 0, "voided"⟩] }
      (true, db4)

/-- Embeds `POSService.create_draft_order`
(`src/inventory/inventory_service.py` lines 70-115): inserts the order in
`draft` status with total 0 and no payment method, its items, and a
`HOLD_ORDER` audit entry.  Returns the new order id, or `none` for an empty
cart. -/
def create_draft_order (db : Db) (userId : Nat) (items : List CartItem)
    (orderName : String) : Option Nat × Db :=
  if items = [] then (none, db)
  else
    let oid := db.nextOrderId
    let db1 : Db := { db with
      orders := db.orders ++
        [⟨oid, "DRF-" ++ toString db.clock, userId, 0, "draft", none, none,
          none, none, none⟩],
      nextOrderId := db.nextOrderId + 1 }
    let db2 : Db := { db1 with
      orderItems := db1.orderItems ++
        items.map (fun it => ⟨oid, it.id, it.quantity, it.price,
          (it.quantity : Rat) * it.price⟩) }
    let db3 : Db := { db2 with
      auditLog := db2.auditLog ++
        [⟨some userId, "HOLD_ORDER", "orders", oid,
          "order_number=DRF; note=" ++ orderName⟩] }
    (some oid, db3)

/-- The recomputed subtotal of a draft order: the sum of
`quantity * unit_price` over its stored order items. -/
def draftSubtotal (db : Db) (orderId : Nat) : Rat :=
  ((orderItemsOf db orderId).map (fun r => (r.quantity : Rat) * r.unitPrice)).sum

/-- The discounted, floored-at-zero total computed by
`finalize_draft_order`. -/
def draftTotal (db : Db) (orderId : Nat) (discountPercent : Rat) : Rat :=
  max (draftSubtotal db orderId -
    draftSubtotal db orderId * (discountPercent / 100)) 0

/-- Embeds `POSService.finalize_draft_order`
(`src/inventory/inventory_service.py` lines 117-203).  Aborts (returning
`false` and the unchanged state) when the order is missing or not a draft,
when the draft has no items, or when the deduction pipeline fails;
otherwise updates the order to `completed`, inserts the `paid` payment and
the `FINALIZE_DRAFT` audit entry. -/
def finalize_draft_order (db : Db) (orderId userId : Nat)
    (payment_method : String) (discountPercent : Rat) : Bool × Db :=
  match findOrder db orderId with
  | none => (false, db)
  | some o =>
    if pyLower o.status ≠ "draft" then (false, db)
    else if orderItemsOf db orderId = [] then (false, db)
    else
      let total := draftTotal db orderId discountPercent
      match deduct_ingredients_for_sale db
          ((orderItemsOf db orderId).map (fun r => ⟨r.productId, r.quantity⟩))
          orderId userId with
      | .error _ => (false, db)
      | .ok db1 =>
        let db2 : Db := { db1 with
          orders := db1.orders.map (fun o2 =>
            if o2.id == orderId then
              { o2 with
                totalAmount := total
                paymentMethod := some payment_method
                status := "completed"
                completedAt := some db1.clock }
            else o2) }
        let db3 : Db := { db2 with
          payments := db2.payments ++
            [⟨orderId, normalize_payment_method (some payment_method), total,
              total, 0, "paid"⟩] }
        let db4 : Db := { db3 with
          auditLog := db3.auditLog ++
            [⟨some userId, "FINALIZE_DRAFT", "orders", orderId,
              "method=" ++ normalize_payment_method (some payment_method) ++
                "; raw_payment=" ++ payment_method⟩] }
        (true, db4)

/-- Embeds `POSService.create_order` (`src/inventory/inventory_service.py`
lines 310-405), the direct checkout.  The persisted total is the
`total_amount` argument supplied by the caller; `discountPercent` and
`orderName` only flow into the free-text notes.  Returns the new order id,
or `none` on an empty cart or any pipeline error (nothing persisted). -/
def create_order (db : Db) (userId : Nat) (items : List CartItem)
    (total_amount : Rat) (payment_method : String) (discountPercent : Rat)
    (orderName : String) : Option Nat × Db :=
  if items = [] then (none, db)
  else
    let oid := db.nextOrderId
    let db1 : Db := { db with
      orders := db.orders ++
        [⟨oid, "ORD-" ++ toString db.clock, userId, total_amount, "completed",
          some payment_method, some db.clock, none, none, none⟩],
      nextOrderId := db.nextOrderId + 1 }
    match deduct_ingredients_for_sale db1
        (items.map (fun it => ⟨it.id, it.quantity⟩)) oid userId with
    | .error _ => (none, db)
    | .ok db2 =>
      let db3 : Db := { db2 with
        orderItems := db2.orderItems ++
          items.map (fun it => ⟨oid, it.id, it.quantity, it.price,
            (it.quantity : Rat) * it.price⟩),
        transactions := db2.transactions ++
          items.map (fun it => ⟨"sale", none, some it.id, (it.quantity : Rat),
            it.price, (it.quantity : Rat) * it.price, some userId,
            "Order ORD - " ++ orderName ++
              (if discountPercent ≠ 0 then " - Disc" else "")⟩) }
      let db4 : Db := { db3 with
        payments := db3.payments ++
          [⟨oid, normalize_payment_method (some payment_method), total_amount,
            total_amount, 0, "paid"⟩] }
      let db5 : Db := { db4 with
        auditLog := db4.auditLog ++
          [⟨some userId, "CREATE_ORDER", "orders", oid,
            "method=" ++ normalize_payment_method (some payment_method) ++
              "; raw_payment=" ++ payment_method⟩] }
      (some oid, db5)

/-- The lifecycle operations a caller can run against the store. -/
inductive Op where
  | checkout (userId : Nat) (items : List CartItem) (totalAmount : Rat)
      (paymentMethod : String) (discountPercent : Rat) (orderName : String)
  | draft (userId : Nat) (items : List CartItem) (orderName : String)
  | finalize (orderId userId : Nat) (paymentMethod : String) (discountPercent : Rat)
  | voidOp (orderId performedBy : Nat) (reason : String) (restock : Bool)

/-- Run one lifecycle operation, keeping only the committed state. -/
def applyOp (db : Db) : Op → Db
  | .checkout u items t pm d n => (create_order db u items t pm d n).2
  | .draft u items n => (create_draft_order db u items n).2
  | .finalize oid u pm d => (finalize_draft_order db oid u pm d).2
  | .voidOp oid u r rs => (void_order db oid u r rs).2

/-- Run a sequence of lifecycle operations. -/
def applyOps (db : Db) : List Op → Db
  | [] => db
  | op :: ops => applyOps (applyOp db op) ops

/-! ## Spec-side definitions used for comparison -/

/-- The total of the spec's direct-checkout description, following its
words: `subtotal − subtotal × discount/100, floored at 0`, where the
subtotal sums `quantity * unit price` over the cart lines. -/
def spec_checkout_total (items : List CartItem) (discountPercent : Rat) : Rat :=
  let subtotal := (items.map (fun it => (it.quantity : Rat) * it.price)).sum
  max (subtotal - subtotal * (discountPercent / 100)) 0

/-- Every inventory lot quantity in the ledger is nonnegative. -/
def LotsNonneg (db : Db) : Prop := ∀ l ∈ db.inventory, 0 ≤ l.quantity

/-- The `payments.method` CHECK constraint of the schema:
`method IN ('cash','gcash','card','other')`. -/
def methodOk (m : String) : Prop :=
  m = "cash" ∨ m = "gcash" ∨ m = "card" ∨ m = "other"

/-! ## Helper lemmas -/

theorem find?_map_pred {α : Type} (g : α → α) (p : α → Bool)
    (hg : ∀ a, p (g a) = p a) :
    ∀ l : List α, (l.map g).find? p = (l.find? p).map g := by
  intro l
  induction l with
  | nil => rfl
  | cons a as ih =>
    simp only [List.map_cons, List.find?_cons, hg a]
    cases hpa : p a
    · exact ih
    · rfl

theorem foldlM_ok_pres {σ α : Type} {f : σ → α → Except DeductErr σ}
    {P : σ → Prop} (hf : ∀ s a s', P s → f s a = .ok s' → P s') :
    ∀ (l : List α) (s s' : σ), P s → l.foldlM f s = .ok s' → P s' := by
  intro l
  induction l with
  | nil =>
    intro s s' hs h
    simp only [List.foldlM_nil, pure, Except.pure] at h
    cases h
    exact hs
  | cons a as ih =>
    intro s s' hs h
    simp only [List.foldlM_cons] at h
    cases hfa : f s a with
    | error e => rw [hfa] at h; simp [Bind.bind, Except.bind] at h
    | ok s1 =>
      rw [hfa] at h
      simp only [Bind.bind, Except.bind] at h
      exact ih s1 s' (hf s a s1 hs hfa) h

/-- Fields of the state other than the ledger (`inventory`) and the
movement log are untouched by one consumption step. -/
theorem consumeIngredient_pres {d d' : Db} {oid u : Nat} {r : Requirement}
    (h : consumeIngredient d oid u r = .ok d') :
    d'.orders = d.orders ∧ d'.orderItems = d.orderItems ∧
    d'.payments = d.payments ∧ d'.auditLog = d.auditLog ∧
    d'.transactions = d.transactions ∧ d'.nextOrderId = d.nextOrderId ∧
    d'.nextLotId = d.nextLotId ∧ d'.clock = d.clock := by
  simp only [consumeIngredient] at h
  split at h
  · cases h
  · cases h
    exact ⟨rfl, rfl, rfl, rfl, rfl, rfl, rfl, rfl⟩

/-- The deduction pipeline touches only the ledger and the movement log. -/
theorem deduct_pres {d d' : Db} {cart : List CartLine} {oid u : Nat}
    (h : deduct_ingredients_for_sale d cart oid u = .ok d') :
    d'.orders = d.orders ∧ d'.orderItems = d.orderItems ∧
    d'.payments = d.payments ∧ d'.auditLog = d.auditLog ∧
    d'.transactions = d.transactions ∧ d'.nextOrderId = d.nextOrderId ∧
    d'.nextLotId = d.nextLotId ∧ d'.clock = d.clock := by
  unfold deduct_ingredients_for_sale at h
  split at h
  · cases h
  · split at h
    · cases h
    · exact foldlM_ok_pres
        (P := fun s => s.orders = d.orders ∧ s.orderItems = d.orderItems ∧
          s.payments = d.payments ∧ s.auditLog = d.auditLog ∧
          s.transactions = d.transactions ∧ s.nextOrderId = d.nextOrderId ∧
          s.nextLotId = d.nextLotId ∧ s.clock = d.clock)
        (fun s a s' hs hstep => by
          obtain ⟨h1, h2, h3, h4, h5, h6, h7, h8⟩ := consumeIngredient_pres hstep
          exact ⟨h1.trans hs.1, h2.trans hs.2.1, h3.trans hs.2.2.1,
            h4.trans hs.2.2.2.1, h5.trans hs.2.2.2.2.1, h6.trans hs.2.2.2.2.2.1,
            h7.trans hs.2.2.2.2.2.2.1, h8.trans hs.2.2.2.2.2.2.2⟩)
        _ _ _ ⟨rfl, rfl, rfl, rfl, rfl, rfl, rfl, rfl⟩ h

/-- The restock loop touches only the ledger, the movement log, the legacy
transactions and the lot counter. -/
theorem restock_foldl_pres (oid u : Nat) (r : String) :
    ∀ (G : List ((Nat × String) × Rat)) (d : Db),
      (G.foldl (restockOne oid u r) d).orders = d.orders ∧
      (G.foldl (restockOne oid u r) d).orderItems = d.orderItems ∧
      (G.foldl (restockOne oid u r) d).payments = d.payments ∧
      (G.foldl (restockOne oid u r) d).auditLog = d.auditLog ∧
      (G.foldl (restockOne oid u r) d).nextOrderId = d.nextOrderId ∧
      (G.foldl (restockOne oid u r) d).clock = d.clock := by
  intro G
  induction G with
  | nil => intro d; exact ⟨rfl, rfl, rfl, rfl, rfl, rfl⟩
  | cons g G ih =>
    intro d
    have hstep : (restockOne oid u r d g).orders = d.orders ∧
        (restockOne oid u r d g).orderItems = d.orderItems ∧
        (restockOne oid u r d g).payments = d.payments ∧
        (restockOne oid u r d g).auditLog = d.auditLog ∧
        (restockOne oid u r d g).nextOrderId = d.nextOrderId ∧
        (restockOne oid u r d g).clock = d.clock := by
      unfold restockOne
      split
      · exact ⟨rfl, rfl, rfl, rfl, rfl, rfl⟩
      · exact ⟨rfl, rfl, rfl, rfl, rfl, rfl⟩
    obtain ⟨i1, i2, i3, i4, i5, i6⟩ := ih (restockOne oid u r d g)
    exact ⟨i1.trans hstep.1, i2.trans hstep.2.1, i3.trans hstep.2.2.1,
      i4.trans hstep.2.2.2.1, i5.trans hstep.2.2.2.2.1, i6.trans hstep.2.2.2.2.2⟩

/-- Projection form of `restock_foldl_pres` for the whole restock call. -/
theorem restock_pres (db : Db) (oid u : Nat) (r : String) :
    (restock_from_order_consumption db oid u r).orders = db.orders ∧
    (restock_from_order_consumption db oid u r).orderItems = db.orderItems ∧
    (restock_from_order_consumption db oid u r).payments = db.payments ∧
    (restock_from_order_consumption db oid u r).auditLog = db.auditLog ∧
    (restock_from_order_consumption db oid u r).nextOrderId = db.nextOrderId ∧
    (restock_from_order_consumption db oid u r).clock = db.clock :=
  restock_foldl_pres oid u r (consumeGroups db oid) db

/-- An empty store with fresh counters, used to instantiate hypotheses at
concrete inputs. -/
def dbEmpty : Db :=
  ⟨[], [], [], [], [], [], [], [], [], [], 1, 1, 0⟩

/-! ## C7: finalize on a non-draft order fails without mutation -/

/-- C7: for every order whose current status is not `draft` — including
`completed`, `voided`, or a nonexistent order id — `finalize_draft_order`
fails (the `NotADraft` abort of the source, returning `False`) and leaves
the state unchanged: no ledger, order, payment, or audit mutation. -/
theorem finalize_requires_draft (db : Db) (oid u : Nat) (pm : String) (d : Rat)
    (h : findOrder db oid = none ∨
      ∃ o, findOrder db oid = some o ∧ pyLower o.status ≠ "draft") :
    finalize_draft_order db oid u pm d = (false, db) := by
  rcases h with h | ⟨o, ho, hs⟩
  · simp only [finalize_draft_order, h]
  · simp only [finalize_draft_order, ho]
    rw [if_pos hs]

/-- C7 witness: finalizing a nonexistent order on the empty store fails and
changes nothing. -/
theorem finalize_requires_draft_witness :
    finalize_draft_order dbEmpty 1 1 "cash" 0 = (false, dbEmpty) :=
  finalize_requires_draft dbEmpty 1 1 "cash" 0 (Or.inl rfl)

/-! ## C5: atomicity of every lifecycle operation -/

/-- C5: if any lifecycle operation reports an error (empty cart, invalid
product, missing recipe, shortage, race, non-draft, missing order), the
committed state is exactly the pre-state: no order, order-item, payment,
inventory lot, inventory movement, or audit row written during the call
survives.  This mirrors `get_db_connection` in `src/database/db.py`, where
`commit` runs only at the very end of each operation and every exception
path closes the connection with the transaction uncommitted. -/
theorem lifecycle_atomicity :
    (∀ (db : Db) (u : Nat) (items : List CartItem) (t : Rat) (pm : String)
      (d : Rat) (n : String), (create_order db u items t pm d n).1 = none →
        create_order db u items t pm d n = (none, db))
    ∧ (∀ (db : Db) (u : Nat) (items : List CartItem) (n : String),
        (create_draft_order db u items n).1 = none →
        create_draft_order db u items n = (none, db))
    ∧ (∀ (db : Db) (oid u : Nat) (pm : String) (d : Rat),
        (finalize_draft_order db oid u pm d).1 = false →
        finalize_draft_order db oid u pm d = (false, db))
    ∧ (∀ (db : Db) (oid u : Nat) (r : String) (rs : Bool),
        (void_order db oid u r rs).1 = false →
        void_order db oid u r rs = (false, db)) := by
  refine ⟨?_, ?_, ?_, ?_⟩
  · intro db u items t pm d n h
    by_cases hi : items = []
    · simp only [create_order, if_pos hi]
    · simp only [create_order, if_neg hi] at h ⊢
      split at h
      · next e heq => rfl
      · next s heq => simp at h
  · intro db u items n h
    by_cases hi : items = []
    · simp only [create_draft_order, if_pos hi]
    · simp only [create_draft_order, if_neg hi] at h
      simp at h
  · intro db oid u pm d h
    cases ho : findOrder db oid with
    | none => simp only [finalize_draft_order, ho]
    | some o =>
      simp only [finalize_draft_order, ho] at h ⊢
      by_cases hs : pyLower o.status ≠ "draft"
      · rw [if_pos hs]
      · rw [if_neg hs] at h ⊢
        by_cases hit : orderItemsOf db oid = []
        · rw [if_pos hit]
        · rw [if_neg hit] at h ⊢
          split at h
          · next e heq => rfl
          · next s heq => simp at h
  · intro db oid u r rs h
    cases ho : findOrder db oid with
    | none => simp only [void_order, ho]
    | some o =>
      simp only [void_order, ho] at h
      by_cases hv : pyLower o.status = "voided"
      · rw [if_pos hv] at h; simp at h
      · rw [if_neg hv] at h; simp at h

/-- C5 witness: finalizing a missing order on the empty store reports an
error and commits nothing. -/
theorem lifecycle_atomicity_witness :
    finalize_draft_order dbEmpty 1 1 "cash" 0 = (false, dbEmpty) :=
  lifecycle_atomicity.2.2.1 dbEmpty 1 1 "cash" 0 rfl

/-! ## C2: voiding is idempotent -/

theorem findOrder_some_id {db : Db} {oid : Nat} {o : OrderRow}
    (h : findOrder db oid = some o) : o.id = oid := by
  have := List.find?_some h
  simpa using this

/-- A successful void of a non-voided order marks exactly that order
`voided` in the committed state. -/
theorem void_order_success_spec (db : Db) (oid u : Nat) (r : String) (rs : Bool)
    (o : OrderRow) (ho : findOrder db oid = some o)
    (hv : pyLower o.status ≠ "voided") :
    ∃ db4, void_order db oid u r rs = (true, db4) ∧
      findOrder db4 oid = some (voidedOrder o r u db.clock) := by
  have ho' : db.orders.find? (fun o2 => o2.id == oid) = some o := ho
  have hb : (o.id == oid) = true := by simp [findOrder_some_id ho]
  have hpred : ∀ a : OrderRow,
      ((if a.id == oid then voidedOrder a r u db.clock else a).id == oid) =
        (a.id == oid) := by
    intro a; split <;> rfl
  simp only [void_order, ho, if_neg hv]
  by_cases hrs : rs = true
  · simp only [if_pos hrs]
    refine ⟨_, rfl, ?_⟩
    simp only [findOrder,
      (restock_pres db oid u ("Void restock: " ++ r)).1,
      (restock_pres db oid u ("Void restock: " ++ r)).2.2.2.2.2]
    rw [find?_map_pred _ _ hpred, ho']
    simp [hb]
    exact fun hno => absurd (findOrder_some_id ho) hno
  · simp only [if_neg hrs]
    refine ⟨_, rfl, ?_⟩
    simp only [findOrder]
    rw [find?_map_pred _ _ hpred, ho']
    simp [hb]
    exact fun hno => absurd (findOrder_some_id ho) hno

/-- C2: voiding is idempotent.  First conjunct: on an already-`voided`
order, `void_order` reports success and the committed state is exactly the
pre-state — no restock, no inserted lot, movement, payment or audit row,
and no order-field change.  Second conjunct: a second void of the same
order (with any arguments) leaves the state produced by the first void
untouched, so voiding twice ends in the state of voiding once and never
double-restocks. -/
theorem void_idempotent :
    (∀ (db : Db) (oid u : Nat) (r : String) (rs : Bool) (o : OrderRow),
      findOrder db oid = some o → pyLower o.status = "voided" →
      void_order db oid u r rs = (true, db))
    ∧ (∀ (db : Db) (oid u : Nat) (r : String) (rs : Bool) (u2 : Nat)
        (r2 : String) (rs2 : Bool), (void_order db oid u r rs).1 = true →
        void_order (void_order db oid u r rs).2 oid u2 r2 rs2 =
          (true, (void_order db oid u r rs).2)) := by
  constructor
  · intro db oid u r rs o ho hv
    simp only [void_order, ho, if_pos hv]
  · intro db oid u r rs u2 r2 rs2 h
    cases ho : findOrder db oid with
    | none => simp [void_order, ho] at h
    | some o =>
      by_cases hv : pyLower o.status = "voided"
      · have hEq : void_order db oid u r rs = (true, db) := by
          simp only [void_order, ho, if_pos hv]
        rw [hEq]
        simp only [void_order, ho, if_pos hv]
      · obtain ⟨db4, hEq, hFind⟩ := void_order_success_spec db oid u r rs o ho hv
        rw [hEq]
        have hvd : pyLower (voidedOrder o r u db.clock).status = "voided" :=
          show pyLower "voided" = "voided" by decide
        simp only [void_order, hFind, if_pos hvd]

/-- A concrete already-voided order. -/
def oVoided : OrderRow :=
  ⟨1, "ORD-0", 1, 0, "voided", none, none, some "stale", some 1, some 0⟩

/-- A store holding just the voided order. -/
def dbVoided : Db :=
  { dbEmpty with orders := [oVoided], nextOrderId := 2 }

/-- C2 witness: voiding the already-voided order succeeds and changes
nothing, even with `restock_ingredients=true`. -/
theorem void_idempotent_witness :
    void_order dbVoided 1 5 "again" true = (true, dbVoided) :=
  void_idempotent.1 dbVoided 1 5 "again" true oVoided rfl (by decide)

/-! ## C10: payment-method normalization is total and closed -/

theorem normalize_ok (mo : Option String) :
    methodOk (normalize_payment_method mo) := by
  simp only [normalize_payment_method, methodOk]
  split_ifs <;> simp

/-- Payments already present survive one operation unchanged, and any
payment row inserted by an operation has a method accepted by the schema
CHECK constraint. -/
theorem applyOp_payments (db : Db) (op : Op) (p : PaymentRow)
    (hp : p ∈ (applyOp db op).payments) : p ∈ db.payments ∨ methodOk p.method := by
  cases op with
  | draft u items n =>
    by_cases hi : items = []
    · simp only [applyOp, create_draft_order, if_pos hi] at hp
      exact Or.inl hp
    · simp only [applyOp, create_draft_order, if_neg hi] at hp
      exact Or.inl hp
  | checkout u items t pm d n =>
    by_cases hi : items = []
    · simp only [applyOp, create_order, if_pos hi] at hp
      exact Or.inl hp
    · simp only [applyOp, create_order, if_neg hi] at hp
      split at hp
      · exact Or.inl hp
      · next db2 heq =>
        simp only [List.mem_append, List.mem_singleton] at hp
        rcases hp with hp | hp
        · rw [(deduct_pres heq).2.2.1] at hp
          exact Or.inl hp
        · subst hp
          exact Or.inr (normalize_ok _)
  | finalize oid u pm d =>
    cases ho : findOrder db oid with
    | none =>
      simp only [applyOp, finalize_draft_order, ho] at hp
      exact Or.inl hp
    | some o =>
      simp only [applyOp, finalize_draft_order, ho] at hp
      by_cases hs : pyLower o.status ≠ "draft"
      · rw [if_pos hs] at hp
        exact Or.inl hp
      · rw [if_neg hs] at hp
        by_cases hit : orderItemsOf db oid = []
        · rw [if_pos hit] at hp
          exact Or.inl hp
        · rw [if_neg hit] at hp
          split at hp
          · exact Or.inl hp
          · next db1 heq =>
            simp only [List.mem_append, List.mem_singleton] at hp
            rcases hp with hp | hp
            · rw [(deduct_pres heq).2.2.1] at hp
              exact Or.inl hp
            · subst hp
              exact Or.inr (normalize_ok _)
  | voidOp oid u r rs =>
    cases ho : findOrder db oid with
    | none =>
      simp only [applyOp, void_order, ho] at hp
      exact Or.inl hp
    | some o =>
      simp only [applyOp, void_order, ho] at hp
      by_cases hv : pyLower o.status = "voided"
      · rw [if_pos hv] at hp
        exact Or.inl hp
      · rw [if_neg hv] at hp
        simp only [List.mem_append, List.mem_singleton] at hp
        rcases hp with hp | hp
        · by_cases hrs : rs = true
          · rw [if_pos hrs] at hp
            rw [(restock_pres db oid u ("Void restock: " ++ r)).2.2.1] at hp
            exact Or.inl hp
          · rw [if_neg hrs] at hp
            exact Or.inl hp
        · subst hp
          exact Or.inr (Or.inr (Or.inr (Or.inr rfl)))

/-- C10: payment-method normalization is total and closed over all inputs
(`None`, empty and unrecognized strings included): the result is always one
of `cash`, `gcash`, `card`, `other`; the three bank spellings and every
unknown value map to `other`; and consequently every payment row written by
checkout, finalize or void satisfies the `payments.method` CHECK constraint
of the schema. -/
theorem payment_method_normalization :
    (∀ mo : Option String, methodOk (normalize_payment_method mo))
    ∧ normalize_payment_method (some "bank transfer") = "other"
    ∧ normalize_payment_method (some "bank") = "other"
    ∧ normalize_payment_method (some "transfer") = "other"
    ∧ (∀ s : String,
        pyLower (pyStrip s) ∉
          (["cash", "gcash", "card", "bank transfer", "bank", "transfer",
            "other"] : List String) →
        normalize_payment_method (some s) = "other")
    ∧ (∀ (db : Db) (op : Op) (p : PaymentRow), p ∈ (applyOp db op).payments →
        p ∈ db.payments ∨ methodOk p.method) := by
  refine ⟨normalize_ok, by decide, by decide, by decide, ?_, applyOp_payments⟩
  intro s hs
  simp only [List.mem_cons, List.not_mem_nil, or_false, not_or] at hs
  obtain ⟨h1, h2, h3, h4, h5, h6, h7⟩ := hs
  simp only [normalize_payment_method, Option.getD_some]
  rw [if_neg h1, if_neg h2, if_neg h3, if_neg (by simp [h4, h5, h6]),
    if_neg h7]

/-- C10 witness: an unrecognized payment method is normalized to `other`
and hence passes the schema constraint. -/
theorem payment_method_normalization_witness :
    normalize_payment_method (some "paypal") = "other" :=
  payment_method_normalization.2.2.2.2.1 "paypal" (by decide)

/-! ## C3: the persisted checkout total -/

/-- A catalog with one active product (id 1, price 10) whose recipe (id 1)
has no ingredients, so checkout always passes the pipeline. -/
def dbOneProduct : Db :=
  { dbEmpty with products := [⟨1, 10, true⟩], recipes := [⟨1, 1⟩] }

/-- C3 counterexample: `create_order` does not compute the persisted total
from the cart and discount; it persists the caller-supplied `total_amount`
verbatim.  Selling one unit of the price-10 product with discount 0 but
passing `total_amount = 3` stores 3 in both the order row and the `paid`
payment row, while the spec's formula yields 10. -/
theorem create_order_total_not_recomputed :
    (create_order dbOneProduct 1 [⟨1, 1, 10⟩] 3 "cash" 0 "").1 = some 1
    ∧ ((create_order dbOneProduct 1 [⟨1, 1, 10⟩] 3 "cash" 0 "").2.orders.map
        (fun o => o.totalAmount)) = [3]
    ∧ ((create_order dbOneProduct 1 [⟨1, 1, 10⟩] 3 "cash" 0 "").2.payments.map
        (fun p => p.amount)) = [3]
    ∧ spec_checkout_total [⟨1, 1, 10⟩] 0 = 10
    ∧ (3 : Rat) ≠ 10 := by
  refine ⟨rfl, rfl, rfl, ?_, by norm_num⟩
  simp only [spec_checkout_total, List.map_cons, List.map_nil, List.sum_cons,
    List.sum_nil]
  norm_num

/-- C3 amended: on every successful direct checkout, the stored
`orders.total_amount` and the `paid` payment amount both equal the
`total_amount` argument supplied by the caller (so they equal the spec's
`subtotal − subtotal×discount/100, floored at 0` exactly when the caller
passes that value). -/
theorem create_order_persists_caller_total (db : Db) (u : Nat)
    (items : List CartItem) (t : Rat) (pm : String) (d : Rat) (n : String)
    (hfresh : ∀ o ∈ db.orders, o.id ≠ db.nextOrderId)
    (hsucc : (create_order db u items t pm d n).1.isSome) :
    (create_order db u items t pm d n).1 = some db.nextOrderId
    ∧ (findOrder (create_order db u items t pm d n).2 db.nextOrderId).map
        (fun o => o.totalAmount) = some t
    ∧ (create_order db u items t pm d n).2.payments = db.payments ++
        [⟨db.nextOrderId, normalize_payment_method (some pm), t, t, 0,
          "paid"⟩] := by
  by_cases hi : items = []
  · simp [create_order, if_pos hi] at hsucc
  · simp only [create_order, if_neg hi] at hsucc ⊢
    split at hsucc
    · simp at hsucc
    · next db2 heq =>
      refine ⟨rfl, ?_, ?_⟩
      · simp only [findOrder, (deduct_pres heq).1]
        rw [List.find?_append]
        have hnone : db.orders.find? (fun o => o.id == db.nextOrderId) = none := by
          rw [List.find?_eq_none]
          intro o homem
          simpa using hfresh o homem
        rw [hnone]
        simp
      · simp only [(deduct_pres heq).2.2.1]

/-- C3 amended witness: a concrete successful checkout persisting the
caller-supplied total 5. -/
theorem create_order_persists_caller_total_witness :
    (create_order dbOneProduct 1 [⟨1, 1, 10⟩] 5 "cash" 0 "").1 =
      some dbOneProduct.nextOrderId :=
  (create_order_persists_caller_total dbOneProduct 1 [⟨1, 1, 10⟩] 5 "cash" 0 ""
    (by decide) rfl).1

/-! ## C1: void with restock reverses exactly the recorded consumption -/

/-- The new lots the restock loop inserts, one per group, with consecutive
lot ids. -/
def restockLotsFrom (lotId clock : Nat) :
    List ((Nat × String) × Rat) → List LotRow
  | [] => []
  | g :: G => restockLot lotId clock g :: restockLotsFrom (lotId + 1) clock G

theorem mem_dedupKeys {k : Nat × String} :
    ∀ (l seen : List (Nat × String)), k ∈ dedupKeys seen l → k ∈ l := by
  intro l
  induction l with
  | nil => intro seen h; simp [dedupKeys] at h
  | cons a as ih =>
    intro seen h
    simp only [dedupKeys] at h
    split at h
    · exact List.mem_cons_of_mem _ (ih seen h)
    · rcases List.mem_cons.mp h with h | h
      · exact h ▸ List.mem_cons_self _ _
      · exact List.mem_cons_of_mem _ (ih (a :: seen) h)

/-- When every recorded `consume` movement of the order has positive
quantity, every `(ingredient, unit)` group sum is positive, so no group is
skipped by the loop's `qty <= 0` guard. -/
theorem consumeGroups_pos {db : Db} {oid : Nat}
    (hpos : ∀ m ∈ db.movements, isOrderConsume oid m = true → 0 < m.qty) :
    ∀ g ∈ consumeGroups db oid, 0 < g.2 := by
  intro g hg
  simp only [consumeGroups, List.mem_map] at hg
  obtain ⟨k, hk, rfl⟩ := hg
  have hk' : k ∈ (db.movements.filter (isOrderConsume oid)).map
      (fun m => (m.ingredientId, m.unit)) := mem_dedupKeys _ [] hk
  simp only [List.mem_map] at hk'
  obtain ⟨m, hm, hmk⟩ := hk'
  have hmem2 : m ∈ (db.movements.filter (isOrderConsume oid)).filter
      (fun m2 => m2.ingredientId == k.1 && m2.unit == k.2) := by
    refine List.mem_filter.mpr ⟨hm, ?_⟩
    rw [← hmk]
    simp
  apply List.sum_pos
  · intro x hx
    simp only [List.mem_map] at hx
    obtain ⟨m2, hm2, rfl⟩ := hx
    have h2 := List.mem_filter.mp (List.mem_filter.mp hm2).1
    exact hpos m2 h2.1 h2.2
  · exact List.ne_nil_of_mem (List.mem_map_of_mem _ hmem2)

/-- The restock loop, run over groups with positive sums, appends exactly
one new lot, one `refund` movement and one legacy transaction per group,
and advances the lot counter by the group count. -/
theorem restock_foldl_spec (oid u : Nat) (r : String) :
    ∀ (G : List ((Nat × String) × Rat)) (d : Db), (∀ g ∈ G, 0 < g.2) →
      G.foldl (restockOne oid u r) d =
        { d with
          inventory := d.inventory ++ restockLotsFrom d.nextLotId d.clock G
          movements := d.movements ++ G.map (refundMovement oid u r)
          transactions := d.transactions ++ G.map (restockTransaction oid u)
          nextLotId := d.nextLotId + G.length } := by
  intro G
  induction G with
  | nil =>
    intro d h
    simp [restockLotsFrom]
  | cons g G ih =>
    intro d h
    have hg : 0 < g.2 := h g (List.mem_cons_self _ _)
    simp only [List.foldl_cons]
    rw [show restockOne oid u r d g = { d with
        inventory := d.inventory ++ [restockLot d.nextLotId d.clock g]
        nextLotId := d.nextLotId + 1
        movements := d.movements ++ [refundMovement oid u r g]
        transactions := d.transactions ++ [restockTransaction oid u g] } from by
      simp [restockOne, hg]]
    rw [ih _ (fun g2 hg2 => h g2 (List.mem_cons_of_mem _ hg2))]
    simp [restockLotsFrom, List.append_assoc, Nat.add_assoc, Nat.add_comm,
      Nat.add_left_comm]

/-- C1: for a non-voided order whose recorded `consume` movements all have
positive quantity, `void_order` with `restock_ingredients=true` succeeds
and appends, for each `(ingredient, unit)` group of this order's `consume`
movements, exactly one new inventory lot whose quantity is the group's
`SUM(qty)` (`consumedSum`) and exactly one `refund` movement of that same
quantity referencing the order; moreover the group sums are read from the
`inventory_movements` ledger only — replacing the recipes and recipe items
arbitrarily does not change them. -/
theorem restock_exactness_on_void (db : Db) (oid u : Nat) (r : String)
    (o : OrderRow) (ho : findOrder db oid = some o)
    (hnv : pyLower o.status ≠ "voided")
    (hpos : ∀ m ∈ db.movements, isOrderConsume oid m = true → 0 < m.qty) :
    (void_order db oid u r true).1 = true
    ∧ (void_order db oid u r true).2.inventory =
        db.inventory ++ restockLotsFrom db.nextLotId db.clock (consumeGroups db oid)
    ∧ (void_order db oid u r true).2.movements =
        db.movements ++ (consumeGroups db oid).map
          (refundMovement oid u ("Void restock: " ++ r))
    ∧ (∀ (rs : List RecipeRow) (ris : List RecipeItemRow),
        consumeGroups { db with recipes := rs, recipeItems := ris } oid =
          consumeGroups db oid) := by
  have hres : restock_from_order_consumption db oid u ("Void restock: " ++ r) =
      { db with
        inventory := db.inventory ++
          restockLotsFrom db.nextLotId db.clock (consumeGroups db oid)
        movements := db.movements ++ (consumeGroups db oid).map
          (refundMovement oid u ("Void restock: " ++ r))
        transactions := db.transactions ++ (consumeGroups db oid).map
          (restockTransaction oid u)
        nextLotId := db.nextLotId + (consumeGroups db oid).length } := by
    unfold restock_from_order_consumption
    exact restock_foldl_spec oid u ("Void restock: " ++ r) (consumeGroups db oid)
      db (consumeGroups_pos hpos)
  refine ⟨?_, ?_, ?_, fun rs ris => rfl⟩
  · simp only [void_order, ho, if_neg hnv]
  · simp only [void_order, ho, if_neg hnv, if_pos rfl, hres, if_true]
  · simp only [void_order, ho, if_neg hnv, if_pos rfl, hres, if_true]

/-- A store holding one completed order (id 7) with two recorded `consume`
movements of coffee (ingredient 3, unit kg). -/
def dbConsumed : Db :=
  { dbEmpty with
    orders := [⟨7, "ORD-1", 1, 20, "completed", some "cash", some 0, none,
      none, none⟩]
    movements := [⟨3, "consume", 2, "kg", some "order", some 7, some 1, "sale"⟩,
      ⟨3, "consume", 1, "kg", some "order", some 7, some 1, "sale"⟩]
    nextOrderId := 8 }

/-- C1 witness: voiding the consumed order with restock on the concrete
store succeeds. -/
theorem restock_exactness_on_void_witness :
    (void_order dbConsumed 7 2 "damaged" true).1 = true :=
  (restock_exactness_on_void dbConsumed 7 2 "damaged"
    ⟨7, "ORD-1", 1, 20, "completed", some "cash", some 0, none, none, none⟩
    rfl (by decide) (by decide)).1

/-! ## C4: no negative stock -/

theorem consumeWalk_nonneg :
    ∀ (lots : List LotRow) (rem : Rat), (∀ l ∈ lots, 0 ≤ l.quantity) →
      ∀ l ∈ (consumeWalk lots rem).1, 0 ≤ l.quantity := by
  intro lots
  induction lots with
  | nil => intro rem h l hl; simp [consumeWalk] at hl
  | cons l0 ls ih =>
    intro rem h l hl
    simp only [consumeWalk] at hl
    split at hl
    · exact h l hl
    · split at hl
      · exact ih _ (fun x hx => h x (List.mem_cons_of_mem _ hx)) l hl
      · next hq =>
        rcases List.mem_cons.mp hl with rfl | hl2
        · exact le_of_lt (not_le.mp hq)
        · exact ih _ (fun x hx => h x (List.mem_cons_of_mem _ hx)) l hl2

theorem consumeIngredient_nonneg {d d' : Db} {oid u2 : Nat} {r : Requirement}
    (hn : LotsNonneg d) (h : consumeIngredient d oid u2 r = .ok d') :
    LotsNonneg d' := by
  simp only [consumeIngredient] at h
  split at h
  · cases h
  · cases h
    intro l hl
    rcases List.mem_append.mp hl with hl | hl
    · exact hn l (List.mem_filter.mp hl).1
    · refine consumeWalk_nonneg _ _ ?_ l hl
      intro x hx
      have hx2 : x ∈ d.inventory.filter
          (fun l2 => l2.ingredientId == r.ingredientId) := List.mem_mergeSort.mp hx
      exact hn x (List.mem_filter.mp hx2).1

theorem deduct_nonneg {d d' : Db} {cart : List CartLine} {oid u2 : Nat}
    (hn : LotsNonneg d) (h : deduct_ingredients_for_sale d cart oid u2 = .ok d') :
    LotsNonneg d' := by
  unfold deduct_ingredients_for_sale at h
  split at h
  · cases h
  · split at h
    · cases h
    · exact foldlM_ok_pres (fun s a s' hs hstep => consumeIngredient_nonneg hs hstep)
        _ _ _ hn h

theorem restock_foldl_inventory (oid u2 : Nat) (r : String) :
    ∀ (G : List ((Nat × String) × Rat)) (d : Db) (l : LotRow),
      l ∈ (G.foldl (restockOne oid u2 r) d).inventory →
      l ∈ d.inventory ∨ 0 < l.quantity := by
  intro G
  induction G with
  | nil => intro d l hl; exact Or.inl hl
  | cons g G ih =>
    intro d l hl
    rcases ih (restockOne oid u2 r d g) l hl with h | h
    · unfold restockOne at h
      split at h
      · next hpos =>
        rcases List.mem_append.mp h with h | h
        · exact Or.inl h
        · simp only [List.mem_singleton] at h
          subst h
          exact Or.inr hpos
      · exact Or.inl h
    · exact Or.inr h

/-- Every lot surviving a restock call is either an original lot or one of
the newly inserted lots, and the latter always have strictly positive
quantity (the `qty <= 0` guard skips the rest). -/
theorem restock_nonneg_mem (db : Db) (oid u2 : Nat) (r : String) (l : LotRow)
    (hl : l ∈ (restock_from_order_consumption db oid u2 r).inventory) :
    l ∈ db.inventory ∨ 0 < l.quantity :=
  restock_foldl_inventory oid u2 r (consumeGroups db oid) db l hl

theorem applyOp_nonneg (db : Db) (op : Op) (hn : LotsNonneg db) :
    LotsNonneg (applyOp db op) := by
  cases op with
  | draft u items n =>
    simp only [applyOp, create_draft_order]
    split
    · exact hn
    · intro l hl; exact hn l hl
  | checkout u items t pm d n =>
    simp only [applyOp, create_order]
    split
    · exact hn
    · split
      · exact hn
      · next db2 heq =>
        intro l hl
        refine deduct_nonneg ?_ heq l hl
        intro x hx
        exact hn x hx
  | finalize oid u pm d =>
    simp only [applyOp, finalize_draft_order]
    split
    · exact hn
    · split
      · exact hn
      · split
        · exact hn
        · split
          · exact hn
          · next db1 heq =>
            intro l hl
            exact deduct_nonneg hn heq l hl
  | voidOp oid u2 r rs =>
    simp only [applyOp, void_order]
    split
    · exact hn
    · split
      · exact hn
      · intro l hl
        by_cases hrs : rs = true
        · rw [if_pos hrs] at hl
          rcases restock_nonneg_mem db oid u2 _ l hl with h | h
          · exact hn l h
          · exact le_of_lt h
        · rw [if_neg hrs] at hl
          exact hn l hl

/-- C4: no negative stock.  First conjunct: starting from any ledger whose
lot quantities are all nonnegative, every lot quantity stays nonnegative
after any sequence of checkout / draft / finalize / void(+restock)
operations.  Second conjunct: the void-restock path only ever inserts lots
with strictly positive quantity (a surviving lot is an original one or is
strictly positive). -/
theorem no_negative_stock :
    (∀ (ops : List Op) (db : Db), LotsNonneg db → LotsNonneg (applyOps db ops))
    ∧ (∀ (db : Db) (oid u : Nat) (r : String) (l : LotRow),
        l ∈ (restock_from_order_consumption db oid u r).inventory →
        l ∈ db.inventory ∨ 0 < l.quantity) := by
  constructor
  · intro ops
    induction ops with
    | nil => intro db h; exact h
    | cons op ops ih =>
      intro db h
      exact ih _ (applyOp_nonneg db op h)
  · exact restock_nonneg_mem

/-- C4 witness: the invariant holds concretely across a void-with-restock
of the consumed order. -/
theorem no_negative_stock_witness :
    LotsNonneg (applyOps dbConsumed [Op.voidOp 7 2 "damaged" true]) :=
  no_negative_stock.1 [Op.voidOp 7 2 "damaged" true] dbConsumed
    (fun l hl => absurd hl (List.not_mem_nil l))

/-! ## C8: successful finalize of a draft -/

/-- C8: whenever `finalize_draft_order` succeeds, the order was a draft
with at least one stored item; the order row is updated to `completed` with
the recomputed total `draftTotal` (the sum of `quantity * unit_price` over
its stored items, discounted and floored at 0), a completion timestamp and
the raw payment method; exactly one `paid` payment row of that amount is
appended; and the stored order items are not re-inserted (the order-items
table is unchanged). -/
theorem finalize_draft_success_effects (db : Db) (oid u : Nat) (pm : String)
    (d : Rat) (h : (finalize_draft_order db oid u pm d).1 = true) :
    (∃ o, findOrder db oid = some o ∧ pyLower o.status = "draft" ∧
      findOrder (finalize_draft_order db oid u pm d).2 oid = some
        { o with
          totalAmount := draftTotal db oid d
          paymentMethod := some pm
          status := "completed"
          completedAt := some db.clock })
    ∧ orderItemsOf db oid ≠ []
    ∧ (finalize_draft_order db oid u pm d).2.payments = db.payments ++
        [⟨oid, normalize_payment_method (some pm), draftTotal db oid d,
          draftTotal db oid d, 0, "paid"⟩]
    ∧ (finalize_draft_order db oid u pm d).2.orderItems = db.orderItems := by
  cases ho : findOrder db oid with
  | none => simp [finalize_draft_order, ho] at h
  | some o =>
    simp only [finalize_draft_order, ho] at h ⊢
    by_cases hs : pyLower o.status ≠ "draft"
    · rw [if_pos hs] at h
      simp at h
    · rw [if_neg hs] at h ⊢
      by_cases hit : orderItemsOf db oid = []
      · rw [if_pos hit] at h
        simp at h
      · rw [if_neg hit] at h ⊢
        split at h
        · simp at h
        · next db1 heq =>
          have ho' : db.orders.find? (fun o2 => o2.id == oid) = some o := ho
          have hb : (o.id == oid) = true := by simp [findOrder_some_id ho]
          have hOrders := (deduct_pres heq).1
          have hItems := (deduct_pres heq).2.1
          have hPays := (deduct_pres heq).2.2.1
          have hClock := (deduct_pres heq).2.2.2.2.2.2.2
          refine ⟨⟨o, rfl, not_not.mp hs, ?_⟩, hit, ?_, ?_⟩
          · simp only [findOrder, hOrders, hClock]
            rw [find?_map_pred _ _ (by intro a; split <;> rfl), ho']
            simp [hb]
            exact fun hno => absurd (findOrder_some_id ho) hno
          · simp only [hPays]
          · simp only [hItems]

/-- A store with one draft order (id 5) holding two units of the price-10
product whose recipe has no ingredients. -/
def dbDraft : Db :=
  { dbEmpty with
    products := [⟨1, 10, true⟩]
    recipes := [⟨1, 1⟩]
    orders := [⟨5, "DRF-0", 1, 0, "draft", none, none, none, none, none⟩]
    orderItems := [⟨5, 1, 2, 10, 20⟩]
    nextOrderId := 6 }

/-- C8 witness: a concrete successful finalize does not re-insert the
stored order items. -/
theorem finalize_draft_success_effects_witness :
    (finalize_draft_order dbDraft 5 1 "gcash" 0).2.orderItems =
      dbDraft.orderItems :=
  (finalize_draft_success_effects dbDraft 5 1 "gcash" 0 rfl).2.2.2

/-! ## C6: the order status state machine -/

theorem find?_update_other {l : List OrderRow} {oid : Nat} {o : OrderRow}
    (g : OrderRow → OrderRow)
    (hpred : ∀ a : OrderRow, ((g a).id == oid) = (a.id == oid))
    (ho : l.find? (fun o2 => o2.id == oid) = some o) (hgo : g o = o) :
    (l.map g).find? (fun o2 => o2.id == oid) = some o := by
  rw [find?_map_pred g _ hpred, ho]
  simp [hgo]

/-- A voided order is found unchanged after any single lifecycle
operation. -/
theorem findOrder_applyOp_voided (db : Db) (op : Op) (oid : Nat) (o : OrderRow)
    (ho : findOrder db oid = some o) (hv : pyLower o.status = "voided") :
    findOrder (applyOp db op) oid = some o := by
  have ho' : db.orders.find? (fun o2 => o2.id == oid) = some o := ho
  cases op with
  | draft u items n =>
    simp only [applyOp, create_draft_order]
    split
    · exact ho
    · simp only [findOrder, List.find?_append, ho', Option.or_some]
  | checkout u items t pm d n =>
    simp only [applyOp, create_order]
    split
    · exact ho
    · split
      · exact ho
      · next db2 heq =>
        simp only [findOrder, (deduct_pres heq).1, List.find?_append, ho',
          Option.or_some]
  | finalize oid2 u pm d =>
    simp only [applyOp]
    cases ho2 : findOrder db oid2 with
    | none => simp only [finalize_draft_order, ho2]; exact ho
    | some o2 =>
      simp only [finalize_draft_order, ho2]
      by_cases hs2 : pyLower o2.status ≠ "draft"
      · rw [if_pos hs2]; exact ho
      · rw [if_neg hs2]
        by_cases hit : orderItemsOf db oid2 = []
        · rw [if_pos hit]; exact ho
        · rw [if_neg hit]
          by_cases hoid : oid2 = oid
          · exfalso
            subst hoid
            have heqo : o2 = o := Option.some.inj (ho2.symm.trans ho)
            have hd : pyLower o2.status = "draft" := not_not.mp hs2
            rw [heqo, hv] at hd
            exact absurd hd (by decide)
          · have hne : (o.id == oid2) = false := by
              rw [findOrder_some_id ho]
              exact beq_eq_false_iff_ne.mpr (fun hh => hoid hh.symm)
            split
            · exact ho
            · next db1 heq =>
              simp only [findOrder, (deduct_pres heq).1]
              exact find?_update_other _ (by intro a; split <;> rfl) ho'
                (by simp [hne])
  | voidOp oid2 u2 r2 rs2 =>
    simp only [applyOp]
    cases ho2 : findOrder db oid2 with
    | none => simp only [void_order, ho2]; exact ho
    | some o2 =>
      simp only [void_order, ho2]
      by_cases hv2 : pyLower o2.status = "voided"
      · rw [if_pos hv2]; exact ho
      · rw [if_neg hv2]
        by_cases hoid : oid2 = oid
        · exfalso
          subst hoid
          have heqo : o2 = o := Option.some.inj (ho2.symm.trans ho)
          rw [heqo] at hv2
          exact hv2 hv
        · have hne : (o.id == oid2) = false := by
            rw [findOrder_some_id ho]
            exact beq_eq_false_iff_ne.mpr (fun hh => hoid hh.symm)
          simp only [findOrder]
          by_cases hrs : rs2 = true
          · simp only [if_pos hrs,
              (restock_pres db oid2 u2 ("Void restock: " ++ r2)).1]
            exact find?_update_other _ (by intro a; split <;> rfl) ho'
              (by simp [hne])
          · simp only [if_neg hrs]
            exact find?_update_other _ (by intro a; split <;> rfl) ho'
              (by simp [hne])

/-- A completed order either survives one operation unchanged, or the
operation was a void of exactly this order and its row becomes the voided
row. -/
theorem findOrder_applyOp_completed (db : Db) (op : Op) (oid : Nat)
    (o : OrderRow) (ho : findOrder db oid = some o)
    (hc : o.status = "completed") :
    findOrder (applyOp db op) oid = some o
    ∨ ∃ u2 r2 rs2, op = Op.voidOp oid u2 r2 rs2 ∧
        findOrder (applyOp db op) oid = some (voidedOrder o r2 u2 db.clock) := by
  have ho' : db.orders.find? (fun o2 => o2.id == oid) = some o := ho
  have hnv : pyLower o.status ≠ "voided" := by rw [hc]; decide
  have hnd : pyLower o.status ≠ "draft" := by rw [hc]; decide
  cases op with
  | draft u items n =>
    left
    simp only [applyOp, create_draft_order]
    split
    · exact ho
    · simp only [findOrder, List.find?_append, ho', Option.or_some]
  | checkout u items t pm d n =>
    left
    simp only [applyOp, create_order]
    split
    · exact ho
    · split
      · exact ho
      · next db2 heq =>
        simp only [findOrder, (deduct_pres heq).1, List.find?_append, ho',
          Option.or_some]
  | finalize oid2 u pm d =>
    left
    simp only [applyOp]
    cases ho2 : findOrder db oid2 with
    | none => simp only [finalize_draft_order, ho2]; exact ho
    | some o2 =>
      simp only [finalize_draft_order, ho2]
      by_cases hs2 : pyLower o2.status ≠ "draft"
      · rw [if_pos hs2]; exact ho
      · rw [if_neg hs2]
        by_cases hit : orderItemsOf db oid2 = []
        · rw [if_pos hit]; exact ho
        · rw [if_neg hit]
          by_cases hoid : oid2 = oid
          · exfalso
            subst hoid
            have heqo : o2 = o := Option.some.inj (ho2.symm.trans ho)
            exact hnd (heqo ▸ not_not.mp hs2)
          · have hne : (o.id == oid2) = false := by
              rw [findOrder_some_id ho]
              exact beq_eq_false_iff_ne.mpr (fun hh => hoid hh.symm)
            split
            · exact ho
            · next db1 heq =>
              simp only [findOrder, (deduct_pres heq).1]
              exact find?_update_other _ (by intro a; split <;> rfl) ho'
                (by simp [hne])
  | voidOp oid2 u2 r2 rs2 =>
    cases ho2 : findOrder db oid2 with
    | none => left; simp only [applyOp, void_order, ho2]; exact ho
    | some o2 =>
      by_cases hv2 : pyLower o2.status = "voided"
      · left
        simp only [applyOp, void_order, ho2]
        rw [if_pos hv2]; exact ho
      · by_cases hoid : oid2 = oid
        · right
          subst hoid
          obtain ⟨db4, hEq, hFind⟩ :=
            void_order_success_spec db oid2 u2 r2 rs2 o ho hnv
          exact ⟨u2, r2, rs2, rfl, by simp only [applyOp, hEq]; exact hFind⟩
        · left
          simp only [applyOp, void_order, ho2]
          rw [if_neg hv2]
          have hne : (o.id == oid2) = false := by
            rw [findOrder_some_id ho]
            exact beq_eq_false_iff_ne.mpr (fun hh => hoid hh.symm)
          simp only [findOrder]
          by_cases hrs : rs2 = true
          · simp only [if_pos hrs,
              (restock_pres db oid2 u2 ("Void restock: " ++ r2)).1]
            exact find?_update_other _ (by intro a; split <;> rfl) ho'
              (by simp [hne])
          · simp only [if_neg hrs]
            exact find?_update_other _ (by intro a; split <;> rfl) ho'
              (by simp [hne])

/-- C6: the order status state machine.  First conjunct: once an order's
status is `voided`, no sequence of operations ever changes its row again
(terminality of `voided`).  Second conjunct: a successful
`finalize_draft_order` requires the pre-state status to be `draft` and sets
it to `completed`.  Third conjunct: under any single operation, the only
transition out of `completed` is to `voided`, and only via `void_order` on
that very order. -/
theorem order_state_machine :
    (∀ (ops : List Op) (db : Db) (oid : Nat) (o : OrderRow),
      findOrder db oid = some o → o.status = "voided" →
      findOrder (applyOps db ops) oid = some o)
    ∧ (∀ (db : Db) (oid u : Nat) (pm : String) (d : Rat),
        (finalize_draft_order db oid u pm d).1 = true →
        ∃ o, findOrder db oid = some o ∧ pyLower o.status = "draft" ∧
          ∃ o2, findOrder (finalize_draft_order db oid u pm d).2 oid = some o2 ∧
            o2.status = "completed")
    ∧ (∀ (op : Op) (db : Db) (oid : Nat) (o o2 : OrderRow),
        findOrder db oid = some o → o.status = "completed" →
        findOrder (applyOp db op) oid = some o2 →
        o2.status = "completed" ∨ (o2.status = "voided" ∧
          ∃ u2 r2 rs2, op = Op.voidOp oid u2 r2 rs2)) := by
  refine ⟨?_, ?_, ?_⟩
  · intro ops
    induction ops with
    | nil => intro db oid o ho _; exact ho
    | cons op ops ih =>
      intro db oid o ho hv
      exact ih (applyOp db op) oid o
        (findOrder_applyOp_voided db op oid o ho (by rw [hv]; decide)) hv
  · intro db oid u pm d h
    obtain ⟨⟨o, ho, hd, hfind⟩, _, _, _⟩ :=
      finalize_draft_success_effects db oid u pm d h
    exact ⟨o, ho, hd, _, hfind, rfl⟩
  · intro op db oid o o2 ho hc h2
    rcases findOrder_applyOp_completed db op oid o ho hc with hsame | ⟨u2, r2, rs2, hop, hvd⟩
    · left
      rw [hsame] at h2
      rw [← Option.some.inj h2]
      exact hc
    · right
      rw [hvd] at h2
      rw [← Option.some.inj h2]
      exact ⟨rfl, u2, r2, rs2, hop⟩

/-- C6 witness: the concrete voided order is untouched by a further void
operation on it. -/
theorem order_state_machine_witness :
    findOrder (applyOps dbVoided [Op.voidOp 1 9 "again" true]) 1 =
      some oVoided :=
  order_state_machine.1 [Op.voidOp 1 9 "again" true] dbVoided 1 oVoided rfl rfl

/-! ## C9: recipe resolution with wastage -/

/-- The accumulated quantity the requirement map assigns to one ingredient
(summing in case of several entries; a well-formed map has at most one). -/
def reqQty (reqs : List Requirement) (iid : Nat) : Rat :=
  ((reqs.filter (fun r => r.ingredientId == iid)).map (fun r => r.qty)).sum

/-- The recipe items of a product, through its recipe row. -/
def recipeItemsFor (db : Db) (pid : Nat) : List RecipeItemRow :=
  match db.recipes.find? (fun rc => rc.productId == pid) with
  | none => []
  | some rc => db.recipeItems.filter (fun ri => ri.recipeId == rc.id)

/-- The closed-form requirement one cart line contributes for one
ingredient: the sum of `base_qty * line_quantity * (1 + wastage_factor)`
over the recipe items of the line's product that reference the
ingredient. -/
def lineRequired (db : Db) (iid : Nat) (line : CartLine) : Rat :=
  (((recipeItemsFor db line.productId).filter
      (fun ri => ri.ingredientId == iid)).map
    (fun ri => ri.qty * (line.quantity : Rat) * (1 + ri.wastageFactor))).sum

/-- The closed-form total requirement of a cart for one ingredient. -/
def requiredTotal (db : Db) (cart : List CartLine) (iid : Nat) : Rat :=
  (cart.map (lineRequired db iid)).sum

theorem reqQty_cons (r : Requirement) (L : List Requirement) (j : Nat) :
    reqQty (r :: L) j =
      (if r.ingredientId == j then r.qty else 0) + reqQty L j := by
  simp only [reqQty, List.filter_cons]
  split <;> simp

theorem addReq_reqQty :
    ∀ (acc : List Requirement) (iid : Nat) (q : Rat) (u : String)
      (acc' : List Requirement), addReq acc iid q u = .ok acc' →
      ∀ j, reqQty acc' j = reqQty acc j + (if j = iid then q else 0) := by
  intro acc
  induction acc with
  | nil =>
    intro iid q u acc' h j
    cases h
    rw [reqQty_cons]
    by_cases hj : j = iid
    · subst hj
      simp [reqQty]
    · rw [if_neg hj, if_neg (by simp [Ne.symm hj])]
      simp [reqQty]
  | cons r rs ih =>
    intro iid q u acc' h j
    simp only [addReq] at h
    split at h
    · next hri =>
      split at h
      · cases h
        rw [reqQty_cons, reqQty_cons]
        by_cases hj : j = iid
        · rw [if_pos hj, if_pos (by simp [hri, hj]), if_pos (by simp [hri, hj])]
          ring
        · rw [if_neg hj, if_neg (by simp [hri, Ne.symm hj]),
            if_neg (by simp [hri, Ne.symm hj])]
          ring
      · cases h
    · next hri =>
      split at h
      · cases h
      · next rs' heq =>
        cases h
        rw [reqQty_cons, reqQty_cons, ih iid q u rs' heq j]
        ring


theorem foldlM_addReq (line : CartLine) :
    ∀ (items : List RecipeItemRow) (acc acc' : List Requirement),
      items.foldlM (fun a ri => addReq a ri.ingredientId
        (ri.qty * (line.quantity : Rat) * (1 + ri.wastageFactor)) ri.unit)
          acc = .ok acc' →
      ∀ j, reqQty acc' j = reqQty acc j +
        ((items.filter (fun ri => ri.ingredientId == j)).map
          (fun ri => ri.qty * (line.quantity : Rat) *
            (1 + ri.wastageFactor))).sum := by
  intro items
  induction items with
  | nil =>
    intro acc acc' h j
    simp only [List.foldlM_nil, pure, Except.pure] at h
    cases h
    simp
  | cons ri ris ih =>
    intro acc acc' h j
    simp only [List.foldlM_cons] at h
    cases hstep : addReq acc ri.ingredientId
        (ri.qty * (line.quantity : Rat) * (1 + ri.wastageFactor)) ri.unit with
    | error e => rw [hstep] at h; simp [Bind.bind, Except.bind] at h
    | ok acc1 =>
      rw [hstep] at h
      simp only [Bind.bind, Except.bind] at h
      rw [ih acc1 acc' h j,
        addReq_reqQty acc _ _ _ acc1 hstep j, List.filter_cons]
      by_cases hj : ri.ingredientId = j
      · rw [if_pos hj.symm, if_pos (by simp [hj])]
        simp only [List.map_cons, List.sum_cons]
        ring
      · rw [if_neg (fun hh => hj hh.symm), if_neg (by simp [hj])]
        ring

theorem resolveLine_reqQty (db : Db) (acc acc' : List Requirement)
    (line : CartLine) (h : resolveLine db acc line = .ok acc') (j : Nat) :
    reqQty acc' j = reqQty acc j + lineRequired db j line := by
  unfold resolveLine at h
  split at h
  · cases h
  · split at h
    · cases h
    · next rc hrc =>
      rw [foldlM_addReq line _ acc acc' h j]
      congr 1
      unfold lineRequired recipeItemsFor
      rw [hrc]

theorem resolve_foldlM_reqQty (db : Db) :
    ∀ (cart : List CartLine) (acc reqs : List Requirement),
      cart.foldlM (resolveLine db) acc = .ok reqs →
      ∀ j, reqQty reqs j = reqQty acc j + (cart.map (lineRequired db j)).sum := by
  intro cart
  induction cart with
  | nil =>
    intro acc reqs h j
    simp only [List.foldlM_nil, pure, Except.pure] at h
    cases h
    simp
  | cons line rest ih =>
    intro acc reqs h j
    simp only [List.foldlM_cons] at h
    cases hstep : resolveLine db acc line with
    | error e => rw [hstep] at h; simp [Bind.bind, Except.bind] at h
    | ok acc1 =>
      rw [hstep] at h
      simp only [Bind.bind, Except.bind] at h
      rw [ih acc1 reqs h j, resolveLine_reqQty db acc acc1 line hstep j,
        List.map_cons, List.sum_cons]
      ring

/-- A catalog with one latte (product 1) whose recipe needs 0.03 kg of
coffee (ingredient 10) and 0.2 L of milk (ingredient 11), both with 5%
wastage. -/
def dbLatte : Db :=
  { dbEmpty with
    products := [⟨1, 150, true⟩]
    recipes := [⟨1, 1⟩]
    recipeItems := [⟨1, 10, 0.03, "kg", 0.05⟩, ⟨1, 11, 0.2, "L", 0.05⟩] }

/-- C9: the resolver accumulates, per ingredient, exactly the sum of
`base_qty * line_quantity * (1 + wastage_factor)` over every cart line and
every recipe item of the line's product referencing that ingredient
(`requiredTotal`); on the latte example, 3 lattes require
`0.03*3*1.05 = 0.0945` kg coffee and `0.2*3*1.05 = 0.63` L milk. -/
theorem recipe_resolution_wastage :
    (∀ (db : Db) (cart : List CartLine) (reqs : List Requirement),
      resolveRequirements db cart = .ok reqs →
      ∀ j, reqQty reqs j = requiredTotal db cart j)
    ∧ requiredTotal dbLatte [⟨1, 3⟩] 10 = 189 / 2000
    ∧ requiredTotal dbLatte [⟨1, 3⟩] 11 = 63 / 100 := by
  refine ⟨?_, ?_, ?_⟩
  · intro db cart reqs h j
    have := resolve_foldlM_reqQty db cart [] reqs h j
    rw [this]
    simp [reqQty, requiredTotal]
  · norm_num [requiredTotal, lineRequired, recipeItemsFor, dbLatte, dbEmpty,
      List.find?]
  · norm_num [requiredTotal, lineRequired, recipeItemsFor, dbLatte, dbEmpty,
      List.find?]

/-- C9 witness: resolving an empty cart succeeds with the empty requirement
map, whose accumulated quantities agree with the closed-form sums. -/
theorem recipe_resolution_wastage_witness :
    reqQty [] 10 = requiredTotal dbLatte [] 10 :=
  recipe_resolution_wastage.1 dbLatte [] [] rfl 10

end CafeCraft
